import Mathlib

/-!
Verification development for the Link-Shortener repository.

Shallow embedding of the link-shortener core: the `links` Postgres table
(src/db/schema.ts, mirrored in src/unnamed/part_017) with its unique index on
`short_code`, the plain server actions (src/actions/links.ts), the
react-query action variants (src/lib/react-query/actions/link.action.ts),
the public redirect route (src/app/l/[code]/route.ts), and the zod input
schema `getLinkValidation` (bundled with the route file).

Modelling conventions:
  * The database is a `DbState`: a list of rows plus the serial-id counter.
  * Timestamps are natural numbers supplied by the caller as `now`
    (the code calls `new Date()` / `defaultNow()`).
  * A thrown JS exception is `Except.error`; a returned value is
    `Except.ok`.  Stateful operations return `Except ε α × DbState`; on an
    error the state component is the unchanged input state (the store's
    statements are atomic, so a rejected statement mutates nothing).
  * Unexpected store unavailability is an explicit `dbFail : Bool`
    parameter on the functions whose source wraps the store call in
    `try/catch`.
  * SQL `ORDER BY created_at DESC` is modelled by an insertion sort
    `sortByNewest` (executable, kernel-reducible); SQL `ILIKE '%s%'` is
    modelled by case-insensitive substring containment over the
    characters (`%`/`_` wildcards inside the user search string itself are
    not given their SQL meaning — no claim depends on them).
-/

/-- A row of the `links` table (src/unnamed/part_017): serial primary key,
`short_code` (unique index), `original_url`, `user_id`, timestamps. -/
structure Link where
  id : Nat
  shortCode : String
  originalUrl : String
  userId : String
  createdAt : Nat
  updatedAt : Nat
deriving DecidableEq, Repr

/-- The state of the external Postgres store: the rows of `links` and the
next value of the `id` serial sequence. -/
structure DbState where
  rows : List Link
  nextId : Nat
deriving DecidableEq, Repr

/-- Errors raised by the store itself (Postgres), as opposed to errors the
application constructs. `uniqueViolation` is the unique index
`short_code_idx` rejecting a statement. -/
inductive DbError
  | uniqueViolation
deriving DecidableEq, Repr

/-- `SELECT * FROM links WHERE short_code = code LIMIT 1`. -/
def dbSelectByCode (code : String) (st : DbState) : List Link :=
  (st.rows.filter (fun l => l.shortCode == code)).take 1

/-- `INSERT INTO links ... RETURNING *`, subject to the unique index on
`short_code`: the insert is rejected atomically when any row already
carries `code`. -/
def dbInsert (url code userId : String) (st : DbState) (now : Nat) :
    Except DbError Link × DbState :=
  if st.rows.any (fun l => l.shortCode == code) then
    (.error .uniqueViolation, st)
  else
    let newLink : Link := ⟨st.nextId, code, url, userId, now, now⟩
    (.ok newLink, ⟨st.rows ++ [newLink], st.nextId + 1⟩)

/-- The drizzle `.set({...data, updatedAt: new Date()})` payload applied to
one row: absent (`none`) fields keep their value; `updatedAt` is always
refreshed. -/
def applySet (url? code? : Option String) (now : Nat) (l : Link) : Link :=
  { l with
    originalUrl := url?.getD l.originalUrl
    shortCode := code?.getD l.shortCode
    updatedAt := now }

/-- `UPDATE links SET ... WHERE id = id AND user_id = u RETURNING *`,
subject to the unique index: if the updated row's `short_code` would equal
a different row's, the whole statement is rejected and nothing changes.
Returns the updated row (`none` when no row matched). -/
def dbUpdate (id : Nat) (u : String) (url? code? : Option String)
    (st : DbState) (now : Nat) : Except DbError (Option Link) × DbState :=
  match (st.rows.filter (fun l => l.id == id && l.userId == u)).head? with
  | none => (.ok none, st)
  | some l0 =>
    let l' := applySet url? code? now l0
    if st.rows.any (fun l2 => l2.id != l0.id && l2.shortCode == l'.shortCode) then
      (.error .uniqueViolation, st)
    else
      (.ok (some l'),
        ⟨st.rows.map (fun l => if l.id == id && l.userId == u then applySet url? code? now l else l),
          st.nextId⟩)

/-- `DELETE FROM links WHERE id = id AND user_id = u RETURNING *`. -/
def dbDelete (id : Nat) (u : String) (st : DbState) : Option Link × DbState :=
  match (st.rows.filter (fun l => l.id == id && l.userId == u)).head? with
  | none => (none, st)
  | some l0 =>
    (some l0, ⟨st.rows.filter (fun l => !(l.id == id && l.userId == u)), st.nextId⟩)

/-- Containment of `pat` as a contiguous segment of `l` (executable). -/
def segIn [DecidableEq α] (pat : List α) : List α → Bool
  | [] => pat.isEmpty
  | a :: t => pat.isPrefixOf (a :: t) || segIn pat t

/-- `field ILIKE '%pat%'`: case-insensitive substring containment. -/
def ilikeContains (field pat : String) : Bool :=
  segIn (pat.toList.map Char.toLower) (field.toList.map Char.toLower)

/-- Insert `x` into a list that is sorted newest-first by `createdAt`. -/
def insertByNewest (x : Link) : List Link → List Link
  | [] => [x]
  | y :: t => if y.createdAt ≤ x.createdAt then x :: y :: t else y :: insertByNewest x t

/-- `ORDER BY created_at DESC` as an executable sort. -/
def sortByNewest : List Link → List Link
  | [] => []
  | x :: t => insertByNewest x (sortByNewest t)

theorem mem_insertByNewest {a x : Link} {l : List Link} :
    a ∈ insertByNewest x l ↔ a = x ∨ a ∈ l := by
  induction l with
  | nil => simp [insertByNewest]
  | cons y t ih =>
    by_cases h : y.createdAt ≤ x.createdAt
    · simp [insertByNewest, h]
    · simp [insertByNewest, h, ih]
      tauto

theorem mem_sortByNewest {a : Link} {l : List Link} :
    a ∈ sortByNewest l ↔ a ∈ l := by
  induction l with
  | nil => simp [sortByNewest]
  | cons x t ih => simp [sortByNewest, mem_insertByNewest, ih]

theorem length_insertByNewest (x : Link) (l : List Link) :
    (insertByNewest x l).length = l.length + 1 := by
  induction l with
  | nil => simp [insertByNewest]
  | cons y t ih =>
    by_cases h : y.createdAt ≤ x.createdAt <;> simp [insertByNewest, h, ih]

theorem length_sortByNewest (l : List Link) :
    (sortByNewest l).length = l.length := by
  induction l with
  | nil => simp [sortByNewest]
  | cons x t ih => simp [sortByNewest, length_insertByNewest, ih]

namespace Links

/-! ## src/actions/links.ts — plain Next.js server actions -/

/-- The `{ success, data?, error? }` object the plain actions return. -/
structure ActionResult where
  success : Bool
  data : Option Link := none
  error : Option String := none
deriving DecidableEq, Repr

/-- `createLink` (src/actions/links.ts lines 13-46): throws `Unauthorized`
without a caller identity, throws `Missing required fields` when either
input string is empty (JS falsiness on strings), then inserts inside
`try/catch`, translating every store failure — the unique-index rejection
included — into `{ success: false, error: "Failed to create link" }`. -/
def createLink (auth : Option String) (originalUrl shortCode : String)
    (st : DbState) (now : Nat) (dbFail : Bool) :
    Except String ActionResult × DbState :=
  match auth with
  | none => (.error "Unauthorized", st)
  | some userId =>
    if originalUrl == "" || shortCode == "" then
      (.error "Missing required fields", st)
    else if dbFail then
      (.ok { success := false, error := some "Failed to create link" }, st)
    else
      match dbInsert originalUrl shortCode userId st now with
      | (.error _, _) =>
        (.ok { success := false, error := some "Failed to create link" }, st)
      | (.ok newLink, st') =>
        (.ok { success := true, data := some newLink }, st')

/-- `getLinkByShortCode` (src/actions/links.ts lines 136-152): public
lookup, no auth; `Link not found` when the select is empty, and the catch
branch turns store failure into `Failed to fetch link`. -/
def getLinkByShortCode (shortCode : String) (st : DbState) (dbFail : Bool) :
    ActionResult :=
  if dbFail then { success := false, error := some "Failed to fetch link" }
  else
    match (dbSelectByCode shortCode st).head? with
    | none => { success := false, error := some "Link not found" }
    | some l => { success := true, data := some l }

/-- `updateLink` (src/actions/links.ts lines 181-209): throws
`Unauthorized` without identity; then one `UPDATE ... WHERE id AND user_id`
inside `try/catch`; an empty `RETURNING` means not-found/unauthorized, a
store failure becomes `Failed to update link`. -/
def updateLink (auth : Option String) (id : Nat) (url? code? : Option String)
    (st : DbState) (now : Nat) (dbFail : Bool) :
    Except String ActionResult × DbState :=
  match auth with
  | none => (.error "Unauthorized", st)
  | some u =>
    if dbFail then
      (.ok { success := false, error := some "Failed to update link" }, st)
    else
      match dbUpdate id u url? code? st now with
      | (.error _, st') =>
        (.ok { success := false, error := some "Failed to update link" }, st')
      | (.ok none, st') =>
        (.ok { success := false, error := some "Link not found or unauthorized" }, st')
      | (.ok (some l'), st') =>
        (.ok { success := true, data := some l' }, st')

/-- `deleteLink` (src/actions/links.ts lines 215-239): throws
`Unauthorized` without identity; `DELETE ... RETURNING` inside
`try/catch`. -/
def deleteLink (auth : Option String) (id : Nat) (st : DbState) (dbFail : Bool) :
    Except String ActionResult × DbState :=
  match auth with
  | none => (.error "Unauthorized", st)
  | some u =>
    if dbFail then
      (.ok { success := false, error := some "Failed to delete link" }, st)
    else
      match dbDelete id u st with
      | (none, st') =>
        (.ok { success := false, error := some "Link not found or unauthorized" }, st')
      | (some _, st') => (.ok { success := true }, st')

/-- Parameters of `getUserLinksPaginated`; `none` is an absent field. -/
structure PageParams where
  cursor : Option Nat := none
  limit : Option Nat := none
  search : Option String := none
deriving DecidableEq, Repr

/-- The `{ items, nextCursor, hasNextPage }` payload. -/
structure PageData where
  items : List Link
  nextCursor : Option Nat
  hasNextPage : Bool
deriving DecidableEq, Repr

/-- The full `getUserLinksPaginated` return object. -/
structure PageResult where
  success : Bool
  error : Option String := none
  data : PageData
deriving DecidableEq, Repr

/-- `params.limit || 10`: absent or zero falls back to 10 (JS `||` on a
falsy number). -/
def effLimit (limit? : Option Nat) : Nat :=
  match limit? with
  | none => 10
  | some n => if n == 0 then 10 else n

/-- `params.search && params.search.trim()`: the search filter is applied
only when the search string has a non-whitespace character (a string is
falsy exactly when empty, and `trim` leaves exactly the non-whitespace
ends). -/
def searchActive (search? : Option String) : Bool :=
  match search? with
  | none => false
  | some s => s != "" && !(s.toList.all Char.isWhitespace)

/-- `params.cursor` truthiness: absent or `0` applies no cursor bound. -/
def cursorActive (cursor? : Option Nat) : Bool :=
  match cursor? with
  | none => false
  | some c => c != 0

/-- The accumulated drizzle `where` condition of `getUserLinksPaginated`:
owner match, plus `ILIKE` on either column when the search is active, plus
`id < cursor` when the cursor is active. -/
def pageCond (u : String) (p : PageParams) (l : Link) : Bool :=
  l.userId == u
    && (!searchActive p.search
        || ilikeContains l.originalUrl (p.search.getD "")
        || ilikeContains l.shortCode (p.search.getD ""))
    && (!cursorActive p.cursor || l.id < p.cursor.getD 0)

/-- `getUserLinksPaginated` (src/actions/links.ts lines 77-134): throws
`Unauthorized` without identity; otherwise selects the matching rows
newest-first with `LIMIT limit+1`, reports `hasNextPage` when the extra
row arrived, returns the first `limit` rows and the last returned id as
`nextCursor`; the catch branch returns an empty page with
`success: false`. -/
def getUserLinksPaginated (auth : Option String) (p : PageParams)
    (st : DbState) (dbFail : Bool) : Except String PageResult :=
  match auth with
  | none => .error "Unauthorized"
  | some u =>
    if dbFail then
      .ok { success := false, error := some "Failed to fetch links",
            data := ⟨[], none, false⟩ }
    else
      let limit := effLimit p.limit
      let userLinks := (sortByNewest (st.rows.filter (pageCond u p))).take (limit + 1)
      let hasNextPage := limit < userLinks.length
      let items := if hasNextPage then userLinks.take limit else userLinks
      let nextCursor := if hasNextPage then items.getLast?.map (·.id) else none
      .ok { success := true, data := ⟨items, nextCursor, hasNextPage⟩ }

end Links

namespace LinkAction

/-! ## src/lib/react-query/actions/link.action.ts — react-query variants -/

/-- The errors these functions can throw: the two application `Error`s and
an untranslated store error escaping a statement that is not wrapped in
`try/catch`. -/
inductive LinkError
  | shortCodeExists
  | linkNotFound
  | store (e : DbError)
deriving DecidableEq, Repr

/-- The `CRUDReturn` object `{ message, data? }`. -/
structure CRUDReturn where
  message : String
  data : Option Link := none
deriving DecidableEq, Repr

/-- The `Omit<NewLink, "userId">` form passed to `addLink`. -/
structure LinkForm where
  originalUrl : String
  shortCode : String
deriving DecidableEq, Repr

/-- The `Partial<Omit<NewLink, "userId">>` form passed to `updateLink`;
`none` is an absent/undefined field. -/
structure UpdateForm where
  originalUrl : Option String := none
  shortCode : Option String := none
deriving DecidableEq, Repr

/-- `addLink` (link.action.ts lines 93-119): a check-then-insert pair with
no `try/catch` — it first selects by `shortCode` and throws
`Short code already exists` when a row comes back, then inserts; a store
rejection of the insert (possible when another call inserted between the
two statements) escapes untranslated. -/
def addLink (form : LinkForm) (userId : String) (st : DbState) (now : Nat) :
    Except LinkError CRUDReturn × DbState :=
  if (dbSelectByCode form.shortCode st).isEmpty then
    match dbInsert form.originalUrl form.shortCode userId st now with
    | (.error e, st') => (.error (.store e), st')
    | (.ok l, st') => (.ok ⟨"Link created successfully", some l⟩, st')
  else (.error .shortCodeExists, st)

/-- The interleaving of two concurrent `addLink` calls in which both
existence checks run against the same initial store state before either
insert executes (the check-then-insert race the `addLink` source allows:
neither statement pair is inside a transaction).  The store serialises
the two inserts; the unique index decides the second.  Returns the two
callers' outcomes and the final store state. -/
def addLinkRacePair (f1 : LinkForm) (u1 : String) (f2 : LinkForm) (u2 : String)
    (st : DbState) (now1 now2 : Nat) :
    Except LinkError CRUDReturn × Except LinkError CRUDReturn × DbState :=
  let c1 := dbSelectByCode f1.shortCode st
  let c2 := dbSelectByCode f2.shortCode st
  if c1.isEmpty then
    match dbInsert f1.originalUrl f1.shortCode u1 st now1 with
    | (.error e1, st1) =>
      if c2.isEmpty then
        match dbInsert f2.originalUrl f2.shortCode u2 st1 now2 with
        | (.error e2, st2) => (.error (.store e1), .error (.store e2), st2)
        | (.ok l2, st2) =>
          (.error (.store e1), .ok ⟨"Link created successfully", some l2⟩, st2)
      else (.error (.store e1), .error .shortCodeExists, st1)
    | (.ok l1, st1) =>
      if c2.isEmpty then
        match dbInsert f2.originalUrl f2.shortCode u2 st1 now2 with
        | (.error e2, st2) =>
          (.ok ⟨"Link created successfully", some l1⟩, .error (.store e2), st2)
        | (.ok l2, st2) =>
          (.ok ⟨"Link created successfully", some l1⟩,
            .ok ⟨"Link created successfully", some l2⟩, st2)
      else (.ok ⟨"Link created successfully", some l1⟩, .error .shortCodeExists, st1)
  else
    if c2.isEmpty then
      match dbInsert f2.originalUrl f2.shortCode u2 st now2 with
      | (.error e2, st2) => (.error .shortCodeExists, .error (.store e2), st2)
      | (.ok l2, st2) =>
        (.error .shortCodeExists, .ok ⟨"Link created successfully", some l2⟩, st2)
    else (.error .shortCodeExists, .error .shortCodeExists, st)

/-- The duplicate pre-check of `updateLink` (link.action.ts lines 128-138):
run only when `form.shortCode` is truthy, and scoped to the caller's own
rows (`eq(links.shortCode, c)` AND `eq(links.userId, userId)`); it throws
when the first row found is a different link (`existing[0].id !== id`). -/
def updateConflict (id : Nat) (code? : Option String) (userId : String)
    (st : DbState) : Bool :=
  match code? with
  | none => false
  | some c =>
    if c == "" then false
    else
      match (st.rows.filter (fun l => l.shortCode == c && l.userId == userId)).head? with
      | some e0 => e0.id != id
      | none => false

/-- `updateLink` (link.action.ts lines 121-155): the owner-scoped
duplicate pre-check, then one `UPDATE ... WHERE id AND user_id` with no
`try/catch` (a unique-index rejection escapes untranslated), throwing
`Link not found` when `RETURNING` is empty. -/
def updateLink (id : Nat) (form : UpdateForm) (userId : String)
    (st : DbState) (now : Nat) : Except LinkError CRUDReturn × DbState :=
  if updateConflict id form.shortCode userId st then
    (.error .shortCodeExists, st)
  else
    match dbUpdate id userId form.originalUrl form.shortCode st now with
    | (.error e, st') => (.error (.store e), st')
    | (.ok none, st') => (.error .linkNotFound, st')
    | (.ok (some l'), st') => (.ok ⟨"Link updated successfully", some l'⟩, st')

/-- `deleteLink` (link.action.ts lines 157-172): `DELETE ... RETURNING`,
throwing `Link not found` when nothing matched. -/
def deleteLink (id : Nat) (userId : String) (st : DbState) :
    Except LinkError CRUDReturn × DbState :=
  match dbDelete id userId st with
  | (none, st') => (.error .linkNotFound, st')
  | (some l, st') => (.ok ⟨"Link deleted successfully", some l⟩, st')

/-- The `{ success, data? }` result of the react-query
`getLinkByShortCode`. -/
structure ResolveResult where
  success : Bool
  data : Option Link := none
deriving DecidableEq, Repr

/-- `getLinkByShortCode` (link.action.ts lines 176-195): select by code
with `LIMIT 1` inside `try/catch`; both an empty result and a store
failure come back as `{ success: false }`. -/
def getLinkByShortCode (shortCode : String) (st : DbState) (dbFail : Bool) :
    ResolveResult :=
  if dbFail then { success := false }
  else
    match (dbSelectByCode shortCode st).head? with
    | none => { success := false }
    | some l => { success := true, data := some l }

/-- `QueryParam` as `getLinks` consumes it (`page`, `limit`, `search`). -/
structure QueryParam where
  page : Option Nat := none
  limit : Option Nat := none
  search : Option String := none
deriving DecidableEq, Repr

/-- The `PaginationResult` object `{ data, total, hasMore }`. -/
structure PaginationResult where
  data : List Link
  total : Nat
  hasMore : Bool
deriving DecidableEq, Repr

/-- The `where` condition of `getLinks`: owner match, plus `ILIKE` on
either column when `search` is a non-empty string (`getLinks` does not
trim). -/
def linksCond (userId : String) (search : String) (l : Link) : Bool :=
  l.userId == userId
    && (search == ""
        || ilikeContains l.shortCode search
        || ilikeContains l.originalUrl search)

/-- `getLinks` (link.action.ts lines 16-78): offset pagination
(`page*limit`, `Number(x) || 0` / `|| 100` defaults), newest-first, a
parallel `count(*)` over the same condition, and `hasMore = offset +
data.length < total`; its catch re-throws, so store failure escapes. -/
def getLinks (userId : String) (q : QueryParam) (st : DbState) (dbFail : Bool) :
    Except String PaginationResult :=
  let page := q.page.getD 0
  let limit := match q.limit with | none => 100 | some n => if n == 0 then 100 else n
  let search := q.search.getD ""
  let offset := page * limit
  if dbFail then .error "store failure"
  else
    let matching := st.rows.filter (linksCond userId search)
    let data := ((sortByNewest matching).drop offset).take limit
    let total := matching.length
    .ok ⟨data, total, offset + data.length < total⟩

end LinkAction

namespace Route

/-! ## src/app/l/[code]/route.ts — the public redirect endpoint -/

/-- A `NextResponse`: either `NextResponse.redirect(url, { status })` or a
plain-body response with a status code. -/
inductive RouteResponse
  | redirect (url : String) (status : Nat)
  | plain (body : String) (status : Nat)
deriving DecidableEq, Repr

/-- The HTTP status of a response. -/
def RouteResponse.status : RouteResponse → Nat
  | .redirect _ s => s
  | .plain _ s => s

/-- `GET` (route.ts lines 4-27): 400 when `code` is falsy (the only
malformed-ness check is emptiness), then the react-query
`getLinkByShortCode`; any unsuccessful or data-less result — unknown code
and caught store failure alike — becomes 404, and a hit becomes a 301
redirect to `originalUrl`.  The surrounding `try/catch` (500) only fires
for errors thrown outside `getLinkByShortCode`, which has none in this
model. -/
def GET (code : String) (st : DbState) (dbFail : Bool) : RouteResponse :=
  if code == "" then .plain "Invalid short code" 400
  else
    let result := LinkAction.getLinkByShortCode code st dbFail
    if result.success then
      match result.data with
      | some l => .redirect l.originalUrl 301
      | none => .plain "Link not found" 404
    else .plain "Link not found" 404

end Route

/-- The `shortCode` rules of the zod schema `getLinkValidation` (bundled
with src/app/l/[code]/route.ts, lines 31-43): `min(3)`, `max(50)`,
`regex(/^[a-zA-Z0-9-_]+$/)`.  This schema is applied by the client-side
forms, not by the server actions. -/
def shortCodeSchemaOk (s : String) : Bool :=
  decide (3 ≤ s.length) && decide (s.length ≤ 50)
    && s.toList.all (fun c => c.isAlphanum || c == '-' || c == '_')

/-! ## Helper lemmas -/

theorem filter_append_nil_left {p : Link → Bool} {l₁ l₂ : List Link}
    (h : ∀ x ∈ l₁, p x = false) :
    (l₁ ++ l₂).filter p = l₂.filter p := by
  induction l₁ with
  | nil => simp
  | cons a t ih =>
    have ha := h a (by simp)
    simp only [List.cons_append, List.filter_cons, ha, Bool.false_eq_true, if_neg]
    exact ih (fun x hx => h x (by simp [hx]))

/-- C1 core: a successful insert makes the new row the one found by a
subsequent select on its short code. -/
theorem dbSelectByCode_after_dbInsert {url code userId : String} {st : DbState}
    {now : Nat} {l : Link} {st' : DbState}
    (h : dbInsert url code userId st now = (.ok l, st')) :
    (dbSelectByCode code st').head? = some l := by
  unfold dbInsert at h
  by_cases hany : st.rows.any (fun l => l.shortCode == code) = true
  · simp [hany] at h
  · rw [if_neg hany] at h
    cases h
    have hnone : ∀ x ∈ st.rows, (x.shortCode == code) = false := by
      intro x hx
      by_contra hcontra
      exact hany (List.any_eq_true.mpr ⟨x, hx, by simpa using hcontra⟩)
    unfold dbSelectByCode
    simp [filter_append_nil_left hnone]

/-! ## C1 — create/resolve round trip -/

/-- C1: for every authenticated owner and inputs, a `createLink` call that
returns `success: true` inserts a row such that `getLinkByShortCode` on
the same short code succeeds and returns a link whose `originalUrl` is the
one just created (src/actions/links.ts `createLink`,
`getLinkByShortCode`). -/
theorem create_then_resolve_roundtrip
    (u url code : String) (st : DbState) (now : Nat)
    (r : Links.ActionResult) (st' : DbState)
    (heq : Links.createLink (some u) url code st now false = (.ok r, st'))
    (hsucc : r.success = true) :
    ∃ l : Link,
      Links.getLinkByShortCode code st' false =
        { success := true, data := some l, error := none } ∧
      l.originalUrl = url ∧ l.shortCode = code := by
  unfold Links.createLink at heq
  by_cases hempty : (url == "" || code == "") = true
  · simp [hempty] at heq
  · rw [Bool.not_eq_true] at hempty
    rcases hins : dbInsert url code u st now with ⟨res, st''⟩
    simp only [hempty, Bool.false_eq_true, if_false, hins] at heq
    cases res with
    | error e =>
      simp only [Prod.mk.injEq, Except.ok.injEq] at heq
      rw [← heq.1] at hsucc
      simp at hsucc
    | ok newLink =>
      simp only [Prod.mk.injEq, Except.ok.injEq] at heq
      obtain ⟨hr, hst⟩ := heq
      subst hst
      refine ⟨newLink, ?_, ?_, ?_⟩
      · unfold Links.getLinkByShortCode
        rw [if_neg (by simp)]
        rw [dbSelectByCode_after_dbInsert hins]
      · -- the inserted row carries the requested originalUrl
        unfold dbInsert at hins
        by_cases hany : st.rows.any (fun l => l.shortCode == code) = true
        · simp [hany] at hins
        · rw [if_neg hany] at hins
          simp only [Prod.mk.injEq, Except.ok.injEq] at hins
          rw [← hins.1]
      · unfold dbInsert at hins
        by_cases hany : st.rows.any (fun l => l.shortCode == code) = true
        · simp [hany] at hins
        · rw [if_neg hany] at hins
          simp only [Prod.mk.injEq, Except.ok.injEq] at hins
          rw [← hins.1]

/-- C1 witness: a concrete successful create followed by a resolve. -/
theorem create_then_resolve_roundtrip_witness :
    ∃ l : Link,
      Links.getLinkByShortCode "abc"
          (Links.createLink (some "U1") "https://example.com/a" "abc" ⟨[], 1⟩ 0 false).2 false =
        { success := true, data := some l, error := none } ∧
      l.originalUrl = "https://example.com/a" ∧ l.shortCode = "abc" :=
  create_then_resolve_roundtrip "U1" "https://example.com/a" "abc" ⟨[], 1⟩ 0
    { success := true, data := some ⟨1, "abc", "https://example.com/a", "U1", 0, 0⟩ }
    ⟨[⟨1, "abc", "https://example.com/a", "U1", 0, 0⟩], 2⟩ rfl rfl

/-! ## C7 — an originalUrl-only update is a frame for the other fields -/

/-- The fields C7 asserts are untouched by an `originalUrl`-only update:
`id`, `ownerId` (`userId`), `shortCode`, `createdAt`. -/
def frameFields (l : Link) : Nat × String × String × Nat :=
  (l.id, l.userId, l.shortCode, l.createdAt)

/-- C7: `updateLink` (src/actions/links.ts) called with only `originalUrl`
(no `shortCode` in the payload) leaves `id`, `userId`, `shortCode` and
`createdAt` of every stored row unchanged — only `originalUrl` and
`updatedAt` can differ.  Stated for every caller, target id, store state
and failure mode. -/
theorem update_url_only_frame
    (auth : Option String) (id : Nat) (url : String)
    (st : DbState) (now : Nat) (dbFail : Bool) :
    ((Links.updateLink auth id (some url) none st now dbFail).2).rows.map frameFields
      = st.rows.map frameFields := by
  unfold Links.updateLink
  cases auth with
  | none => rfl
  | some u =>
    by_cases hfail : dbFail = true
    · simp [hfail]
    · rw [Bool.not_eq_true] at hfail
      subst hfail
      unfold dbUpdate
      rcases hhead : (st.rows.filter (fun l => l.id == id && l.userId == u)).head? with _ | ⟨l0⟩
      · simp [hhead]
      · simp only [hhead]
        by_cases hany : st.rows.any
            (fun l2 => l2.id != l0.id && l2.shortCode == (applySet (some url) none now l0).shortCode) = true
        · simp [hany]
        · simp only [hany, Bool.false_eq_true, if_false, List.map_map]
          apply List.map_congr_left
          intro l _
          by_cases hl : l.id = id ∧ l.userId = u <;>
            simp [hl, applySet, frameFields]

/-! ## C8 — ownership isolation of the listers -/

/-- Every row of a `getUserLinksPaginated` result satisfies the
accumulated where-condition. -/
theorem pageItems_cond (u : String) (p : Links.PageParams) (st : DbState)
    (dbFail : Bool) (r : Links.PageResult) (l : Link)
    (hr : Links.getUserLinksPaginated (some u) p st dbFail = .ok r)
    (hl : l ∈ r.data.items) : Links.pageCond u p l = true := by
  unfold Links.getUserLinksPaginated at hr
  by_cases hfail : dbFail = true
  · simp [hfail] at hr
    rw [← hr] at hl
    simp at hl
  · rw [Bool.not_eq_true] at hfail
    subst hfail
    simp only [Bool.false_eq_true, if_false, Except.ok.injEq] at hr
    rw [← hr] at hl
    simp only at hl
    have hmem : l ∈ (sortByNewest (st.rows.filter (Links.pageCond u p))).take
        (Links.effLimit p.limit + 1) := by
      by_cases hnext :
          Links.effLimit p.limit <
            ((sortByNewest (st.rows.filter (Links.pageCond u p))).take
              (Links.effLimit p.limit + 1)).length
      · simp only [hnext, if_true] at hl
        exact List.mem_of_mem_take hl
      · simp only [hnext, if_false] at hl
        exact hl
    have := mem_sortByNewest.mp (List.mem_of_mem_take hmem)
    exact (List.mem_filter.mp this).2

/-- Every row of a `getLinks` result satisfies its where-condition. -/
theorem getLinks_cond (u : String) (q : LinkAction.QueryParam) (st : DbState)
    (dbFail : Bool) (g : LinkAction.PaginationResult) (l : Link)
    (hg : LinkAction.getLinks u q st dbFail = .ok g)
    (hl : l ∈ g.data) : LinkAction.linksCond u (q.search.getD "") l = true := by
  unfold LinkAction.getLinks at hg
  by_cases hfail : dbFail = true
  · simp [hfail] at hg
  · rw [Bool.not_eq_true] at hfail
    subst hfail
    simp only [Bool.false_eq_true, if_false, Except.ok.injEq] at hg
    rw [← hg] at hl
    simp only at hl
    have hmem := List.mem_of_mem_drop (List.mem_of_mem_take hl)
    have := mem_sortByNewest.mp hmem
    exact (List.mem_filter.mp this).2

/-- C8: a Lister call from owner `a` only ever returns rows whose
`userId` is `a`, for every store state, search filter, pagination
parameter and failure mode — in both the cursor-paginated lister
(`getUserLinksPaginated`, src/actions/links.ts) and the offset-paginated
one (`getLinks`, src/lib/react-query/actions/link.action.ts); a row
created by any other owner is never included. -/
theorem lister_ownership_isolation
    (a : String) (p : Links.PageParams) (q : LinkAction.QueryParam)
    (st : DbState) (dbFail dbFailQ : Bool)
    (r : Links.PageResult) (g : LinkAction.PaginationResult) (l lq : Link)
    (hr : Links.getUserLinksPaginated (some a) p st dbFail = .ok r)
    (hg : LinkAction.getLinks a q st dbFailQ = .ok g)
    (hl : l ∈ r.data.items) (hlq : lq ∈ g.data) :
    l.userId = a ∧ lq.userId = a := by
  constructor
  · have h := pageItems_cond a p st dbFail r l hr hl
    unfold Links.pageCond at h
    simp only [Bool.and_eq_true, beq_iff_eq] at h
    exact h.1.1
  · have h := getLinks_cond a q st dbFailQ g lq hg hlq
    unfold LinkAction.linksCond at h
    simp only [Bool.and_eq_true, beq_iff_eq] at h
    exact h.1

/-- C8 witness: a concrete two-owner store; owner `A`'s lister returns
owner `A`'s row. -/
theorem lister_ownership_isolation_witness :
    ((⟨1, "abc", "https://example.com/a", "A", 5, 5⟩ : Link).userId = "A" ∧
      (⟨1, "abc", "https://example.com/a", "A", 5, 5⟩ : Link).userId = "A") :=
  lister_ownership_isolation "A" {} {}
    ⟨[⟨1, "abc", "https://example.com/a", "A", 5, 5⟩,
      ⟨2, "xyz", "https://example.com/b", "B", 6, 6⟩], 3⟩ false false
    { success := true,
      data := ⟨[⟨1, "abc", "https://example.com/a", "A", 5, 5⟩], none, false⟩ }
    ⟨[⟨1, "abc", "https://example.com/a", "A", 5, 5⟩], 1, false⟩
    ⟨1, "abc", "https://example.com/a", "A", 5, 5⟩
    ⟨1, "abc", "https://example.com/a", "A", 5, 5⟩
    rfl rfl (by decide) (by decide)

/-! ## C10 — a blank search applies no filter -/

/-- C10: `getUserLinksPaginated` treats a search string that is empty or
all-whitespace exactly like an absent search parameter (the
`params.search && params.search.trim()` guard in src/actions/links.ts
lines 89-100), for every caller, cursor, limit, store state and failure
mode. -/
theorem blank_search_is_no_filter
    (auth : Option String) (c lim : Option Nat) (s : String)
    (st : DbState) (dbFail : Bool)
    (hblank : s.toList.all Char.isWhitespace = true) :
    Links.getUserLinksPaginated auth ⟨c, lim, some s⟩ st dbFail =
      Links.getUserLinksPaginated auth ⟨c, lim, none⟩ st dbFail := by
  cases auth with
  | none => rfl
  | some u =>
    have hact : Links.searchActive (some s) = false := by
      unfold Links.searchActive
      simp [hblank]
      intro _
      simpa [List.all_eq_true, String.toList] using hblank
    have hcond : Links.pageCond u ⟨c, lim, some s⟩ = Links.pageCond u ⟨c, lim, none⟩ := by
      funext l
      unfold Links.pageCond
      rw [hact]
      simp [Links.searchActive]
    simp only [Links.getUserLinksPaginated, hcond]

/-- C10 witness: a one-space search equals no search on a concrete
store. -/
theorem blank_search_is_no_filter_witness :
    Links.getUserLinksPaginated (some "U1") ⟨none, none, some " "⟩
        ⟨[⟨1, "abc", "https://example.com/a", "U1", 5, 5⟩], 2⟩ false =
      Links.getUserLinksPaginated (some "U1") ⟨none, none, none⟩
        ⟨[⟨1, "abc", "https://example.com/a", "U1", 5, 5⟩], 2⟩ false :=
  blank_search_is_no_filter (some "U1") none none " "
    ⟨[⟨1, "abc", "https://example.com/a", "U1", 5, 5⟩], 2⟩ false (by decide)

/-! ## C9 — pagination window of getUserLinksPaginated -/

/-- `params.limit || 10` is always positive. -/
theorem effLimit_pos (limit? : Option Nat) : 1 ≤ Links.effLimit limit? := by
  unfold Links.effLimit
  cases limit? with
  | none => decide
  | some n =>
    by_cases h : n == 0
    · simp [h]
    · simp only [h, Bool.false_eq_true, if_false]
      have : ¬n = 0 := by simpa using h
      omega

/-- C9: a successful `getUserLinksPaginated` call returns at most
`effLimit` rows; `hasNextPage` holds exactly when strictly more than
`effLimit` rows match the accumulated condition (owner, search, cursor);
and when it holds, `nextCursor` is the id of the last returned row
(src/actions/links.ts lines 107-126). -/
theorem pagination_window_correct
    (u : String) (p : Links.PageParams) (st : DbState) (r : Links.PageResult)
    (hr : Links.getUserLinksPaginated (some u) p st false = .ok r) :
    r.data.items.length ≤ Links.effLimit p.limit ∧
    (r.data.hasNextPage = true ↔
      Links.effLimit p.limit < (st.rows.filter (Links.pageCond u p)).length) ∧
    (r.data.hasNextPage = true →
      ∃ last : Link, r.data.items.getLast? = some last ∧
        r.data.nextCursor = some last.id) := by
  unfold Links.getUserLinksPaginated at hr
  simp only [Bool.false_eq_true, if_false, Except.ok.injEq] at hr
  rw [← hr]
  simp only
  set L := Links.effLimit p.limit with hdefL
  set ul := (sortByNewest (st.rows.filter (Links.pageCond u p))).take (L + 1) with hdefUl
  have hL : 1 ≤ L := effLimit_pos p.limit
  have hulen : ul.length = min (L + 1) (st.rows.filter (Links.pageCond u p)).length := by
    rw [hdefUl, List.length_take, length_sortByNewest]
  refine ⟨?_, ?_, ?_⟩
  · by_cases hnext : L < ul.length
    · simp only [hnext, if_true, List.length_take]
      exact Nat.min_le_left _ _
    · simp only [hnext, if_false]
      exact Nat.le_of_not_lt hnext
  · rw [decide_eq_true_eq, hulen]
    constructor
    · intro h
      exact (Nat.lt_min.mp h).2
    · intro h
      exact Nat.lt_min.mpr ⟨Nat.lt_succ_self _, h⟩
  · intro hdec
    have hnext : L < ul.length := of_decide_eq_true hdec
    simp only [hnext, if_true]
    have hitems : (ul.take L).length = L := by
      rw [List.length_take]
      exact Nat.min_eq_left (Nat.le_of_lt hnext)
    have hne : ul.take L ≠ [] := by
      intro hnil
      rw [hnil] at hitems
      simp at hitems
      omega
    obtain ⟨last, hlast⟩ :=
      Option.isSome_iff_exists.mp (List.getLast?_isSome.mpr hne)
    refine ⟨last, hlast, ?_⟩
    rw [hlast]
    rfl

/-- C9 witness: limit 1 over a two-row store — one item returned, a next
page flagged, and the cursor pointing at the returned row's id. -/
theorem pagination_window_correct_witness :
    ({ success := true,
       data := ⟨[⟨2, "xyz", "https://example.com/b", "U1", 6, 6⟩], some 2, true⟩ } :
        Links.PageResult).data.items.length ≤ Links.effLimit (some 1) ∧
    (({ success := true,
        data := ⟨[⟨2, "xyz", "https://example.com/b", "U1", 6, 6⟩], some 2, true⟩ } :
         Links.PageResult).data.hasNextPage = true ↔
      Links.effLimit (some 1) <
        ((⟨[⟨1, "abc", "https://example.com/a", "U1", 5, 5⟩,
            ⟨2, "xyz", "https://example.com/b", "U1", 6, 6⟩], 3⟩ : DbState).rows.filter
          (Links.pageCond "U1" ⟨none, some 1, none⟩)).length) ∧
    (({ success := true,
        data := ⟨[⟨2, "xyz", "https://example.com/b", "U1", 6, 6⟩], some 2, true⟩ } :
         Links.PageResult).data.hasNextPage = true →
      ∃ last : Link,
        ({ success := true,
           data := ⟨[⟨2, "xyz", "https://example.com/b", "U1", 6, 6⟩], some 2, true⟩ } :
            Links.PageResult).data.items.getLast? = some last ∧
        ({ success := true,
           data := ⟨[⟨2, "xyz", "https://example.com/b", "U1", 6, 6⟩], some 2, true⟩ } :
            Links.PageResult).data.nextCursor = some last.id) :=
  pagination_window_correct "U1" ⟨none, some 1, none⟩
    ⟨[⟨1, "abc", "https://example.com/a", "U1", 5, 5⟩,
      ⟨2, "xyz", "https://example.com/b", "U1", 6, 6⟩], 3⟩
    { success := true,
      data := ⟨[⟨2, "xyz", "https://example.com/b", "U1", 6, 6⟩], some 2, true⟩ }
    rfl

/-! ## C3 — the redirect endpoint's status codes -/

/-- C3 counterexample: with the store failing unexpectedly, `GET /l/abc`
returns 404 ("Link not found"), not the 500 the claim requires — the
react-query `getLinkByShortCode` catches the store error and reports
`{ success: false }`, which the route maps to 404. -/
theorem redirect_store_failure_is_404_not_500 :
    Route.GET "abc" ⟨[], 1⟩ true = Route.RouteResponse.plain "Link not found" 404 ∧
    (Route.GET "abc" ⟨[], 1⟩ true).status ≠ 500 := by
  constructor
  · rfl
  · decide

/-- C3 as amended: `GET /l/{code}` returns 400 exactly when `code` is
empty (emptiness is the only malformed-ness check); otherwise 301 to the
stored `originalUrl` when the lookup succeeds; and 404 in every other
case — unknown code and unexpected store failure alike, because the
resolver catches store errors and the route maps any unsuccessful result
to 404 (src/app/l/[code]/route.ts,
src/lib/react-query/actions/link.action.ts `getLinkByShortCode`). -/
theorem redirect_status_codes
    (code : String) (st : DbState) (dbFail : Bool) :
    (code = "" → Route.GET code st dbFail = .plain "Invalid short code" 400) ∧
    (code ≠ "" → dbFail = true →
      Route.GET code st dbFail = .plain "Link not found" 404) ∧
    (code ≠ "" → dbFail = false →
      ∀ l : Link, (dbSelectByCode code st).head? = some l →
        Route.GET code st dbFail = .redirect l.originalUrl 301) ∧
    (code ≠ "" → dbFail = false → (dbSelectByCode code st).head? = none →
      Route.GET code st dbFail = .plain "Link not found" 404) := by
  refine ⟨?_, ?_, ?_, ?_⟩
  · intro h
    subst h
    rfl
  · intro hcode hfail
    subst hfail
    unfold Route.GET
    rw [if_neg (by simpa using hcode)]
    rfl
  · intro hcode hfail l hfind
    subst hfail
    unfold Route.GET
    rw [if_neg (by simpa using hcode)]
    unfold LinkAction.getLinkByShortCode
    simp [hfind]
  · intro hcode hfail hfind
    subst hfail
    unfold Route.GET
    rw [if_neg (by simpa using hcode)]
    unfold LinkAction.getLinkByShortCode
    simp [hfind]

/-- C3 witness: the four branches at concrete inputs — empty code, store
failure, a hit, and a miss. -/
theorem redirect_status_codes_witness :
    (Route.GET "" ⟨[], 1⟩ false = .plain "Invalid short code" 400) ∧
    (Route.GET "abc" ⟨[], 1⟩ true = .plain "Link not found" 404) ∧
    (Route.GET "abc"
        ⟨[⟨1, "abc", "https://example.com/a", "U1", 0, 0⟩], 2⟩ false =
      .redirect "https://example.com/a" 301) ∧
    (Route.GET "zzz" ⟨[], 1⟩ false = .plain "Link not found" 404) :=
  ⟨(redirect_status_codes "" ⟨[], 1⟩ false).1 rfl,
   (redirect_status_codes "abc" ⟨[], 1⟩ true).2.1 (by decide) rfl,
   (redirect_status_codes "abc"
       ⟨[⟨1, "abc", "https://example.com/a", "U1", 0, 0⟩], 2⟩ false).2.2.1
     (by decide) rfl ⟨1, "abc", "https://example.com/a", "U1", 0, 0⟩ rfl,
   (redirect_status_codes "zzz" ⟨[], 1⟩ false).2.2.2 (by decide) rfl rfl⟩

/-! ## C4 — createLink performs no URL/pattern/length validation -/

/-- C4 counterexample: `createLink` with `originalUrl = "not-a-url"` (not
an absolute URL) and `shortCode = "a!"` (length 2 < 3, `!` outside the
allowed character class) succeeds and inserts the row — the claim's
`InvalidInput` failure and no-insert guarantee are false.  Validation
lives only in the client-side zod schema (`shortCodeSchemaOk` here), which
`createLink` never invokes. -/
theorem create_skips_validation_counterexample :
    (Links.createLink (some "U1") "not-a-url" "a!" ⟨[], 1⟩ 0 false).1 =
      .ok { success := true, data := some ⟨1, "a!", "not-a-url", "U1", 0, 0⟩ } ∧
    ((Links.createLink (some "U1") "not-a-url" "a!" ⟨[], 1⟩ 0 false).2).rows =
      [⟨1, "a!", "not-a-url", "U1", 0, 0⟩] ∧
    shortCodeSchemaOk "a!" = false :=
  ⟨rfl, rfl, by decide⟩

/-- C4 as amended: the only input validation `createLink` performs is the
presence check (`Missing required fields` on an empty string); for any
authenticated caller, non-empty fields and a fresh short code it succeeds
and inserts the values verbatim, even when the zod schema
`getLinkValidation` (modelled by `shortCodeSchemaOk`) rejects the short
code — the URL/pattern/length rules are enforced only by the client-side
form, not by the server action. -/
theorem create_skips_validation
    (u url code : String) (st : DbState) (now : Nat)
    (hurl : url ≠ "") (hcode : code ≠ "")
    (hfresh : st.rows.any (fun l => l.shortCode == code) = false)
    (_hbad : shortCodeSchemaOk code = false) :
    (Links.createLink (some u) url code st now false).1 =
      .ok { success := true, data := some ⟨st.nextId, code, url, u, now, now⟩ } ∧
    ((Links.createLink (some u) url code st now false).2).rows =
      st.rows ++ [⟨st.nextId, code, url, u, now, now⟩] := by
  have h1 : (url == "") = false := by simpa using hurl
  have h2 : (code == "") = false := by simpa using hcode
  unfold Links.createLink dbInsert
  simp only [h1, h2, Bool.or_self, Bool.or_false, Bool.false_eq_true, if_false, hfresh]
  exact ⟨trivial, trivial⟩

/-- C4 witness: a second concrete invalid input accepted by
`createLink`. -/
theorem create_skips_validation_witness :
    (Links.createLink (some "U2") "ftp:/bad" "x!" ⟨[], 5⟩ 7 false).1 =
      .ok { success := true, data := some ⟨5, "x!", "ftp:/bad", "U2", 7, 7⟩ } ∧
    ((Links.createLink (some "U2") "ftp:/bad" "x!" ⟨[], 5⟩ 7 false).2).rows =
      [⟨5, "x!", "ftp:/bad", "U2", 7, 7⟩] := by
  have h := create_skips_validation "U2" "ftp:/bad" "x!" ⟨[], 5⟩ 7
    (by decide) (by decide) (by decide) (by decide)
  simpa using h

/-! ## C5 — structured results versus unhandled throws -/

/-- C5 counterexample: an unauthenticated `createLink` call terminates by
throwing `Unauthorized` (src/actions/links.ts line 20) — not by returning
a structured success/failure result as the claim requires for every
caller identity. -/
theorem mutation_throws_when_unauthenticated :
    (Links.createLink none "https://example.com/a" "abc" ⟨[], 1⟩ 0 false).1 =
      .error "Unauthorized" := rfl

/-- C5 as amended: the plain-action mutations (`createLink`, `updateLink`,
`deleteLink` of src/actions/links.ts) return a structured result for every
*authenticated* call (for create: with non-empty fields), store failures
and duplicate short codes included; but an unauthenticated call throws
`Unauthorized` unhandled, `createLink` throws on empty fields, and the
react-query `addLink` throws `Short code already exists` on a duplicate
short code instead of returning a result. -/
theorem mutation_structured_results
    (u url code : String) (id : Nat) (url? code? : Option String)
    (st : DbState) (now : Nat) (dbFail : Bool)
    (hurl : url ≠ "") (hcode : code ≠ "") :
    ((Links.createLink (some u) url code st now dbFail).1).isOk = true ∧
    ((Links.updateLink (some u) id url? code? st now dbFail).1).isOk = true ∧
    ((Links.deleteLink (some u) id st dbFail).1).isOk = true ∧
    (Links.createLink none url code st now dbFail).1 = .error "Unauthorized" ∧
    (∀ form : LinkAction.LinkForm, ∀ u2 : String,
      (dbSelectByCode form.shortCode st).isEmpty = false →
      (LinkAction.addLink form u2 st now).1 = .error .shortCodeExists) := by
  refine ⟨?_, ?_, ?_, rfl, ?_⟩
  · unfold Links.createLink
    have h1 : (url == "" || code == "") = false := by simp [hurl, hcode]
    simp only [h1, Bool.false_eq_true, if_false]
    by_cases hf : dbFail = true
    · simp [hf]
      rfl
    · rw [Bool.not_eq_true] at hf
      subst hf
      simp only [Bool.false_eq_true, if_false]
      rcases hins : dbInsert url code u st now with ⟨res, st'⟩
      cases res <;> rfl
  · unfold Links.updateLink
    by_cases hf : dbFail = true
    · simp [hf]
      rfl
    · rw [Bool.not_eq_true] at hf
      subst hf
      simp only [Bool.false_eq_true, if_false]
      rcases hupd : dbUpdate id u url? code? st now with ⟨res, st'⟩
      cases res with
      | error e => rfl
      | ok o => cases o <;> rfl
  · unfold Links.deleteLink
    by_cases hf : dbFail = true
    · simp [hf]
      rfl
    · rw [Bool.not_eq_true] at hf
      subst hf
      simp only [Bool.false_eq_true, if_false]
      rcases hdel : dbDelete id u st with ⟨o, st'⟩
      cases o <;> rfl
  · intro form u2 hdup
    unfold LinkAction.addLink
    simp [hdup]

/-- C5 witness: concrete instances of every conjunct, with a one-row
store making the duplicate case concrete. -/
theorem mutation_structured_results_witness :
    ((Links.createLink (some "U1") "https://example.com/b" "xyz"
        ⟨[⟨1, "abc", "https://example.com/a", "U1", 0, 0⟩], 2⟩ 0 false).1).isOk = true ∧
    ((Links.updateLink (some "U1") 1 (some "https://example.com/c") none
        ⟨[⟨1, "abc", "https://example.com/a", "U1", 0, 0⟩], 2⟩ 3 false).1).isOk = true ∧
    ((Links.deleteLink (some "U1") 1
        ⟨[⟨1, "abc", "https://example.com/a", "U1", 0, 0⟩], 2⟩ false).1).isOk = true ∧
    (Links.createLink none "https://example.com/b" "xyz"
        ⟨[⟨1, "abc", "https://example.com/a", "U1", 0, 0⟩], 2⟩ 0 false).1 =
      .error "Unauthorized" ∧
    (LinkAction.addLink ⟨"https://example.com/dup", "abc"⟩ "U2"
        ⟨[⟨1, "abc", "https://example.com/a", "U1", 0, 0⟩], 2⟩ 9).1 =
      .error .shortCodeExists := by
  have h := mutation_structured_results "U1" "https://example.com/b" "xyz" 1
    (some "https://example.com/c") none
    ⟨[⟨1, "abc", "https://example.com/a", "U1", 0, 0⟩], 2⟩ 0 false
    (by decide) (by decide)
  refine ⟨h.1, ?_, ?_, h.2.2.2.1, ?_⟩
  · have h3 := mutation_structured_results "U1" "https://example.com/b" "xyz" 1
      (some "https://example.com/c") none
      ⟨[⟨1, "abc", "https://example.com/a", "U1", 0, 0⟩], 2⟩ 3 false
      (by decide) (by decide)
    exact h3.2.1
  · exact h.2.2.1
  · exact h.2.2.2.2 ⟨"https://example.com/dup", "abc"⟩ "U2" (by decide)

/-! ## C2 — duplicate creates: sequential versus concurrent -/

/-- A code absent from every row makes the select-by-code empty. -/
theorem dbSelectByCode_eq_nil {code : String} {st : DbState}
    (h : ∀ l ∈ st.rows, l.shortCode ≠ code) : dbSelectByCode code st = [] := by
  unfold dbSelectByCode
  have hfil : st.rows.filter (fun l => l.shortCode == code) = [] := by
    rw [List.filter_eq_nil_iff]
    intro a ha
    simpa using h a ha
  rw [hfil]
  rfl

/-- A code absent from every row makes the unique-index scan negative. -/
theorem rows_any_code_false {code : String} {st : DbState}
    (h : ∀ l ∈ st.rows, l.shortCode ≠ code) :
    st.rows.any (fun l => l.shortCode == code) = false := by
  rw [List.any_eq_false]
  intro a ha
  simpa using h a ha

/-- C2 counterexample: under the concurrent interleaving (both existence
checks before either insert) on an empty store, the first create succeeds
but the loser fails with the *untranslated store* unique-index error, not
with the application's Conflict error `Short code already exists` —
`addLink` does not wrap its insert in `try/catch`, so the claim's
"fails with a Conflict error" is false in the concurrent case. -/
theorem concurrent_create_loser_not_conflict :
    ((LinkAction.addLinkRacePair ⟨"https://example.com/a", "abc"⟩ "U1"
        ⟨"https://example.com/b", "abc"⟩ "U2" ⟨[], 1⟩ 0 0).1).isOk = true ∧
    (LinkAction.addLinkRacePair ⟨"https://example.com/a", "abc"⟩ "U1"
        ⟨"https://example.com/b", "abc"⟩ "U2" ⟨[], 1⟩ 0 0).2.1 =
      .error (.store .uniqueViolation) ∧
    (LinkAction.addLinkRacePair ⟨"https://example.com/a", "abc"⟩ "U1"
        ⟨"https://example.com/b", "abc"⟩ "U2" ⟨[], 1⟩ 0 0).2.1 ≠
      .error .shortCodeExists := by
  refine ⟨rfl, rfl, ?_⟩
  intro hcontra
  have : (LinkAction.LinkError.store .uniqueViolation) = .shortCodeExists :=
    Except.error.inj (by rw [← hcontra]; rfl)
  cases this

/-- C2 as amended: for two creates with the same fresh short code,
exactly one succeeds and the other fails — sequentially the loser fails
with the application Conflict error `Short code already exists`; under
the concurrent check-then-insert interleaving the loser fails with the
store's raw unique-index violation, which `addLink` leaks untranslated
(src/lib/react-query/actions/link.action.ts `addLink`; unique index in
src/unnamed/part_017). -/
theorem duplicate_create_outcomes
    (f1 f2 : LinkAction.LinkForm) (u1 u2 : String) (st : DbState)
    (now1 now2 : Nat)
    (hsame : f2.shortCode = f1.shortCode)
    (hfresh : ∀ l ∈ st.rows, l.shortCode ≠ f1.shortCode) :
    (((LinkAction.addLink f1 u1 st now1).1).isOk = true ∧
      (LinkAction.addLink f2 u2 (LinkAction.addLink f1 u1 st now1).2 now2).1 =
        .error .shortCodeExists) ∧
    (((LinkAction.addLinkRacePair f1 u1 f2 u2 st now1 now2).1).isOk = true ∧
      (LinkAction.addLinkRacePair f1 u1 f2 u2 st now1 now2).2.1 =
        .error (.store .uniqueViolation)) := by
  have hfresh2 : ∀ l ∈ st.rows, l.shortCode ≠ f2.shortCode := by
    intro l hl
    rw [hsame]
    exact hfresh l hl
  have hc1 : dbSelectByCode f1.shortCode st = [] := dbSelectByCode_eq_nil hfresh
  have hc2 : dbSelectByCode f2.shortCode st = [] := dbSelectByCode_eq_nil hfresh2
  have hany1 := rows_any_code_false hfresh
  have hins1 : dbInsert f1.originalUrl f1.shortCode u1 st now1 =
      (.ok ⟨st.nextId, f1.shortCode, f1.originalUrl, u1, now1, now1⟩,
        ⟨st.rows ++ [⟨st.nextId, f1.shortCode, f1.originalUrl, u1, now1, now1⟩],
          st.nextId + 1⟩) := by
    unfold dbInsert
    simp only [hany1, Bool.false_eq_true, if_false]
  have hseq1 : LinkAction.addLink f1 u1 st now1 =
      (.ok ⟨"Link created successfully",
          some ⟨st.nextId, f1.shortCode, f1.originalUrl, u1, now1, now1⟩⟩,
        ⟨st.rows ++ [⟨st.nextId, f1.shortCode, f1.originalUrl, u1, now1, now1⟩],
          st.nextId + 1⟩) := by
    unfold LinkAction.addLink
    simp only [hc1, List.isEmpty_nil, if_true, hins1]
  have hsel2 : dbSelectByCode f2.shortCode
      (⟨st.rows ++ [⟨st.nextId, f1.shortCode, f1.originalUrl, u1, now1, now1⟩],
        st.nextId + 1⟩ : DbState) =
      [⟨st.nextId, f1.shortCode, f1.originalUrl, u1, now1, now1⟩] := by
    unfold dbSelectByCode
    rw [filter_append_nil_left (fun x hx => by simpa using hfresh2 x hx)]
    simp [hsame]
  refine ⟨⟨?_, ?_⟩, ?_, ?_⟩
  · rw [hseq1]
    rfl
  · rw [hseq1]
    unfold LinkAction.addLink
    simp only [hsel2]
    rfl
  · unfold LinkAction.addLinkRacePair
    simp only [hc1, hc2, List.isEmpty_nil, if_true, hins1]
    rcases hins2 : dbInsert f2.originalUrl f2.shortCode u2
        (⟨st.rows ++ [⟨st.nextId, f1.shortCode, f1.originalUrl, u1, now1, now1⟩],
          st.nextId + 1⟩ : DbState) now2 with ⟨res, st2⟩
    rw [hins2]
    cases res <;> rfl
  · have hany2 : ((⟨st.rows ++ [⟨st.nextId, f1.shortCode, f1.originalUrl, u1, now1, now1⟩],
        st.nextId + 1⟩ : DbState)).rows.any (fun l => l.shortCode == f2.shortCode) = true := by
      simp only [List.any_append]
      have : ([⟨st.nextId, f1.shortCode, f1.originalUrl, u1, now1, now1⟩] : List Link).any
          (fun l => l.shortCode == f2.shortCode) = true := by
        simp [hsame]
      simp [this]
    have hins2 : dbInsert f2.originalUrl f2.shortCode u2
        (⟨st.rows ++ [⟨st.nextId, f1.shortCode, f1.originalUrl, u1, now1, now1⟩],
          st.nextId + 1⟩ : DbState) now2 =
        (.error .uniqueViolation,
          ⟨st.rows ++ [⟨st.nextId, f1.shortCode, f1.originalUrl, u1, now1, now1⟩],
            st.nextId + 1⟩) := by
      unfold dbInsert
      simp only [hany2, if_true]
    unfold LinkAction.addLinkRacePair
    simp only [hc1, hc2, List.isEmpty_nil, if_true, hins1, hins2]

/-- C2 witness: a concrete fresh store exercising both the sequential and
the interleaved outcome. -/
theorem duplicate_create_outcomes_witness :
    (((LinkAction.addLink ⟨"https://example.com/a", "abc"⟩ "U1" ⟨[], 1⟩ 0).1).isOk = true ∧
      (LinkAction.addLink ⟨"https://example.com/b", "abc"⟩ "U2"
          (LinkAction.addLink ⟨"https://example.com/a", "abc"⟩ "U1" ⟨[], 1⟩ 0).2 1).1 =
        .error .shortCodeExists) ∧
    (((LinkAction.addLinkRacePair ⟨"https://example.com/a", "abc"⟩ "U1"
        ⟨"https://example.com/b", "abc"⟩ "U2" ⟨[], 1⟩ 0 1).1).isOk = true ∧
      (LinkAction.addLinkRacePair ⟨"https://example.com/a", "abc"⟩ "U1"
          ⟨"https://example.com/b", "abc"⟩ "U2" ⟨[], 1⟩ 0 1).2.1 =
        .error (.store .uniqueViolation)) :=
  duplicate_create_outcomes ⟨"https://example.com/a", "abc"⟩
    ⟨"https://example.com/b", "abc"⟩ "U1" "U2" ⟨[], 1⟩ 0 1 rfl
    (by intro l hl; simp at hl)

/-! ## C6 — update colliding with another link's short code -/

/-- When every element passing `p` equals `x` and `x` is present, the
first filtered element is `x`. -/
theorem filter_head_unique {α : Type} {p : α → Bool} {x : α} {l : List α}
    (hmem : x ∈ l) (hp : p x = true) (huniq : ∀ y ∈ l, p y = true → y = x) :
    (l.filter p).head? = some x := by
  induction l with
  | nil => cases hmem
  | cons a t ih =>
    by_cases hpa : p a = true
    · have ha : a = x := huniq a (by simp) hpa
      subst ha
      simp [List.filter_cons, hpa]
    · simp only [List.filter_cons, hpa, Bool.false_eq_true, if_false]
      rcases List.mem_cons.mp hmem with h | h
      · subst h
        exact absurd hp hpa
      · exact ih h (fun y hy hpy => huniq y (by simp [hy]) hpy)

/-- C6 counterexample: owner `B` holds link 2 and changes its short code
to `"abc"`, which belongs to owner `A`'s link 1.  The owner-scoped
pre-check (`eq(links.userId, userId)`) misses the cross-owner collision,
so `updateLink` does not fail with the Conflict error — the store's
unique index rejects the update and the raw store error escapes.  The
link is unchanged (the state is returned intact). -/
theorem update_cross_owner_collision_not_conflict :
    LinkAction.updateLink 2 ⟨none, some "abc"⟩ "B"
        ⟨[⟨1, "abc", "https://example.com/a", "A", 0, 0⟩,
          ⟨2, "xyz", "https://example.com/b", "B", 0, 0⟩], 3⟩ 5 =
      (.error (.store .uniqueViolation),
        ⟨[⟨1, "abc", "https://example.com/a", "A", 0, 0⟩,
          ⟨2, "xyz", "https://example.com/b", "B", 0, 0⟩], 3⟩) ∧
    (LinkAction.updateLink 2 ⟨none, some "abc"⟩ "B"
        ⟨[⟨1, "abc", "https://example.com/a", "A", 0, 0⟩,
          ⟨2, "xyz", "https://example.com/b", "B", 0, 0⟩], 3⟩ 5).1 ≠
      .error .shortCodeExists := by
  refine ⟨rfl, ?_⟩
  intro hcontra
  have : (LinkAction.LinkError.store .uniqueViolation) = .shortCodeExists :=
    Except.error.inj (by rw [← hcontra]; rfl)
  cases this

/-- C6 as amended: when the new short code `c` collides with a different
link `l2` (short codes being globally unique in the store), the react-query
`updateLink` fails and leaves the store unchanged in both cases, but with
different errors: the Conflict error `Short code already exists` only when
`l2` belongs to the calling owner (the pre-check is owner-scoped); when
`l2` belongs to another owner, the pre-check passes and the store's
unique index rejects the update with a raw unique-violation error that
escapes untranslated. -/
theorem update_shortcode_collision_outcomes
    (id : Nat) (form : LinkAction.UpdateForm) (u c : String) (st : DbState)
    (now : Nat) (l2 : Link)
    (hform : form.shortCode = some c) (hc : c ≠ "")
    (hl2 : l2 ∈ st.rows) (hl2c : l2.shortCode = c) (hl2id : l2.id ≠ id)
    (huniqc : ∀ x ∈ st.rows, x.shortCode = c → x = l2) :
    (l2.userId = u →
      LinkAction.updateLink id form u st now = (.error .shortCodeExists, st)) ∧
    (∀ l0 : Link, l2.userId ≠ u → l0 ∈ st.rows → l0.id = id → l0.userId = u →
      (∀ x ∈ st.rows, x.id = id → x.userId = u → x = l0) →
      LinkAction.updateLink id form u st now =
        (.error (.store .uniqueViolation), st)) := by
  have hcbeq : (c == "") = false := by simpa using hc
  constructor
  · intro hu
    have hhead : (st.rows.filter (fun l => l.shortCode == c && l.userId == u)).head?
        = some l2 := by
      refine filter_head_unique hl2 (by simp [hl2c, hu]) ?_
      intro y hy hpy
      simp only [Bool.and_eq_true, beq_iff_eq] at hpy
      exact huniqc y hy hpy.1
    have hconf : LinkAction.updateConflict id form.shortCode u st = true := by
      rw [hform]
      unfold LinkAction.updateConflict
      simp only [hcbeq, Bool.false_eq_true, if_false, hhead]
      simpa using hl2id
    unfold LinkAction.updateLink
    rw [hconf]
    rfl
  · intro l0 hneq hl0 hl0id hl0u huniqid
    have hconf : LinkAction.updateConflict id form.shortCode u st = false := by
      rw [hform]
      unfold LinkAction.updateConflict
      have hfil : st.rows.filter (fun l => l.shortCode == c && l.userId == u) = [] := by
        rw [List.filter_eq_nil_iff]
        intro a ha hpa
        simp only [Bool.and_eq_true, beq_iff_eq] at hpa
        have : a = l2 := huniqc a ha hpa.1
        rw [this] at hpa
        exact hneq hpa.2
      simp only [hcbeq, Bool.false_eq_true, if_false, hfil]
      rfl
    have hhead0 : (st.rows.filter (fun l => l.id == id && l.userId == u)).head?
        = some l0 := by
      refine filter_head_unique hl0 (by simp [hl0id, hl0u]) ?_
      intro y hy hpy
      simp only [Bool.and_eq_true, beq_iff_eq] at hpy
      exact huniqid y hy hpy.1 hpy.2
    have hsc : (applySet form.originalUrl form.shortCode now l0).shortCode = c := by
      rw [hform]
      rfl
    have hany : (st.rows.any fun x =>
        x.id != l0.id && x.shortCode ==
          (applySet form.originalUrl form.shortCode now l0).shortCode) = true := by
      rw [List.any_eq_true]
      refine ⟨l2, hl2, ?_⟩
      rw [hsc]
      have h1 : l2.id ≠ l0.id := by
        rw [hl0id]
        exact hl2id
      simp [h1, hl2c]
    have hupd : dbUpdate id u form.originalUrl form.shortCode st now =
        (.error .uniqueViolation, st) := by
      unfold dbUpdate
      simp only [hhead0, hany, if_true]
    unfold LinkAction.updateLink
    rw [hconf]
    simp only [Bool.false_eq_true, if_false, hupd]

/-- C6 witness: both collision cases on concrete stores — a same-owner
collision reported as Conflict, and a cross-owner collision surfacing the
raw store error. -/
theorem update_shortcode_collision_outcomes_witness :
    (LinkAction.updateLink 2 ⟨none, some "abc"⟩ "A"
        ⟨[⟨1, "abc", "https://example.com/a", "A", 0, 0⟩,
          ⟨2, "xyz", "https://example.com/b", "A", 0, 0⟩], 3⟩ 5 =
      (.error .shortCodeExists,
        ⟨[⟨1, "abc", "https://example.com/a", "A", 0, 0⟩,
          ⟨2, "xyz", "https://example.com/b", "A", 0, 0⟩], 3⟩)) ∧
    (LinkAction.updateLink 2 ⟨none, some "abc"⟩ "B"
        ⟨[⟨1, "abc", "https://example.com/a", "A", 0, 0⟩,
          ⟨2, "xyz", "https://example.com/b", "B", 0, 0⟩], 3⟩ 5 =
      (.error (.store .uniqueViolation),
        ⟨[⟨1, "abc", "https://example.com/a", "A", 0, 0⟩,
          ⟨2, "xyz", "https://example.com/b", "B", 0, 0⟩], 3⟩)) := by
  constructor
  · exact (update_shortcode_collision_outcomes 2 ⟨none, some "abc"⟩ "A" "abc"
      ⟨[⟨1, "abc", "https://example.com/a", "A", 0, 0⟩,
        ⟨2, "xyz", "https://example.com/b", "A", 0, 0⟩], 3⟩ 5
      ⟨1, "abc", "https://example.com/a", "A", 0, 0⟩
      rfl (by decide) (by decide) rfl (by decide)
      (by decide)).1 rfl
  · exact (update_shortcode_collision_outcomes 2 ⟨none, some "abc"⟩ "B" "abc"
      ⟨[⟨1, "abc", "https://example.com/a", "A", 0, 0⟩,
        ⟨2, "xyz", "https://example.com/b", "B", 0, 0⟩], 3⟩ 5
      ⟨1, "abc", "https://example.com/a", "A", 0, 0⟩
      rfl (by decide) (by decide) rfl (by decide)
      (by decide)).2
      ⟨2, "xyz", "https://example.com/b", "B", 0, 0⟩
      (by decide) (by decide) rfl rfl (by decide)
